import Mathlib

/-!
Verification of `token-metadata-cli` (src/src/main.rs), a Solana CLI that
creates or updates Metaplex token-metadata accounts.  The embedding below
translates the program's pure logic: tilde expansion of the keypair path,
metadata-PDA derivation (with the external `find_program_address` of the
Solana SDK abstracted as a function parameter), the create-path record
construction, the update-path read-modify-write merge, the update summary
display, and the ordering of the failure points in `main`.
-/

namespace TokenMetadataCli

/-- A Solana public key, as its 32-byte `as_ref()` view. -/
abbrev Pubkey : Type := List Nat

/-- The constant `mpl_token_metadata::ID`, the bytes of
`metaqbxxUerdq28cj1RbAWkYQm3ybzjb6a8bt518x1s` (main.rs line 4). -/
def TOKEN_METADATA_PROGRAM_ID : Pubkey :=
  [11, 112, 101, 177, 227, 209, 124, 69, 56, 157, 82, 127, 107, 4, 195, 205,
   88, 184, 108, 115, 26, 160, 253, 181, 73, 182, 209, 188, 3, 248, 41, 70]

/-- The literal seed `b"metadata"` (main.rs line 101). -/
def METADATA_SEED : List Nat := [109, 101, 116, 97, 100, 97, 116, 97]

/-- Embedding of `find_metadata_pda` (main.rs lines 99-106).  The Solana SDK's
`Pubkey::find_program_address` is external library code, abstracted here as
the parameter `fpa` from a seed list and program id to an address together
with the bump byte.  The function builds the seed list
`[b"metadata", program id bytes, mint bytes]`, derives against the
token-metadata program id, and keeps only the first component `.0`. -/
def find_metadata_pda (fpa : List (List Nat) → Pubkey → Pubkey × Nat)
    (mint : Pubkey) : Pubkey :=
  let seeds := [METADATA_SEED, TOKEN_METADATA_PROGRAM_ID, mint]
  (fpa seeds TOKEN_METADATA_PROGRAM_ID).fst

/-- The type `mpl_token_metadata::types::UseMethod`. -/
inductive UseMethod where
  | burn
  | multiple
  | single
deriving DecidableEq, Repr

/-- The type `mpl_token_metadata::types::Creator` (shared between the account record
and `DataV2`). -/
structure Creator where
  address : Pubkey
  verified : Bool
  share : Nat
deriving DecidableEq, Repr

/-- The collection sub-record of the fetched account
(`mpl_token_metadata::accounts::Metadata`). -/
structure MetaCollection where
  verified : Bool
  key : Pubkey
deriving DecidableEq, Repr

/-- The uses sub-record of the fetched account. -/
structure MetaUses where
  use_method : UseMethod
  remaining : Nat
  total : Nat
deriving DecidableEq, Repr

/-- The type `mpl_token_metadata::types::Collection`, the shape expected by `DataV2`;
the update path re-expresses `MetaCollection` values into this type
(main.rs lines 226-231). -/
structure TypesCollection where
  verified : Bool
  key : Pubkey
deriving DecidableEq, Repr

/-- The type `mpl_token_metadata::types::Uses`, the shape expected by `DataV2`
(main.rs lines 232-236). -/
structure TypesUses where
  use_method : UseMethod
  remaining : Nat
  total : Nat
deriving DecidableEq, Repr

/-- The fields of the fetched on-chain record
(`mpl_token_metadata::accounts::Metadata`) that `update_metadata` reads.
String fields are fixed-width and null-padded as decoded;
`seller_fee_basis_points` is a `u16` modelled as `Nat`. -/
structure Metadata where
  name : String
  symbol : String
  uri : String
  seller_fee_basis_points : Nat
  creators : Option (List Creator)
  collection : Option MetaCollection
  uses : Option MetaUses
deriving DecidableEq, Repr

/-- The type `mpl_token_metadata::types::DataV2` (main.rs lines 131-139, 220-237). -/
structure DataV2 where
  name : String
  symbol : String
  uri : String
  seller_fee_basis_points : Nat
  creators : Option (List Creator)
  collection : Option TypesCollection
  uses : Option TypesUses
deriving DecidableEq, Repr

/-- The merged `DataV2` built by `update_metadata` (main.rs lines 197-237):
each caller-omitted string field falls back to the fetched value via
`unwrap_or`, and royalty, creators, collection and uses are carried over
from the fetched record, the latter two re-expressed field-by-field. -/
def merge_data (existing : Metadata)
    (name symbol uri : Option String) : DataV2 :=
  let updated_name := name.getD existing.name
  let updated_symbol := symbol.getD existing.symbol
  let updated_uri := uri.getD existing.uri
  { name := updated_name
    symbol := updated_symbol
    uri := updated_uri
    seller_fee_basis_points := existing.seller_fee_basis_points
    creators := existing.creators
    collection := existing.collection.map
      (fun c => { verified := c.verified, key := c.key })
    uses := existing.uses.map
      (fun u => { use_method := u.use_method, remaining := u.remaining,
                  total := u.total }) }

/-- The fresh `DataV2` built by `create_metadata` (main.rs lines 131-139). -/
def create_data (name symbol uri : String)
    (seller_fee_basis_points : Nat) : DataV2 :=
  { name := name
    symbol := symbol
    uri := uri
    seller_fee_basis_points := seller_fee_basis_points
    creators := none
    collection := none
    uses := none }

/-- Clap default for `--uri` on the create subcommand (main.rs line 52). -/
def DEFAULT_URI : String := ""

/-- Clap default for `--mutable` (main.rs line 56). -/
def DEFAULT_MUTABLE : Bool := true

/-- Clap default for `--seller-fee-basis-points` (main.rs line 60). -/
def DEFAULT_SELLER_FEE_BASIS_POINTS : Nat := 0

/-- The instruction assembled by `CreateMetadataAccountV3Builder`
(main.rs lines 141-149): each field records the value passed to the
corresponding builder setter. -/
structure CreateMetadataIx where
  metadata : Pubkey
  mint : Pubkey
  mint_authority : Pubkey
  payer : Pubkey
  update_authority : Pubkey × Bool
  data : DataV2
  is_mutable : Bool
deriving DecidableEq, Repr

/-- Embedding of `create_metadata` up to the instruction it builds (main.rs lines
108-149); the network submission that follows is out of scope.  The
function is total: no local validation rejects any input. -/
def create_metadata_ix (fpa : List (List Nat) → Pubkey → Pubkey × Nat)
    (payer_pubkey mint : Pubkey) (name symbol uri : String)
    (seller_fee_basis_points : Nat) (is_mutable : Bool) : CreateMetadataIx :=
  let metadata_pda := find_metadata_pda fpa mint
  { metadata := metadata_pda
    mint := mint
    mint_authority := payer_pubkey
    payer := payer_pubkey
    update_authority := (payer_pubkey, true)
    data := create_data name symbol uri seller_fee_basis_points
    is_mutable := is_mutable }

/-- The instruction assembled by `UpdateMetadataAccountV2Builder`
(main.rs lines 239-243).  The builder's optional arguments
(`new_update_authority`, `primary_sale_happened`, `is_mutable`) default to
`none` and the CLI never sets them; only `metadata`, `update_authority`
and `data` are set. -/
structure UpdateMetadataIx where
  metadata : Pubkey
  update_authority : Pubkey
  new_update_authority : Option Pubkey
  data : Option DataV2
  primary_sale_happened : Option Bool
  is_mutable : Option Bool
deriving DecidableEq, Repr

/-- Embedding of `update_metadata` from the fetched record to the instruction it builds
(main.rs lines 197-243). -/
def update_metadata_ix (fpa : List (List Nat) → Pubkey → Pubkey × Nat)
    (payer_pubkey mint : Pubkey) (existing : Metadata)
    (name symbol uri : Option String) : UpdateMetadataIx :=
  let metadata_pda := find_metadata_pda fpa mint
  let new_data := merge_data existing name symbol uri
  { metadata := metadata_pda
    update_authority := payer_pubkey
    new_update_authority := none
    data := some new_data
    primary_sale_happened := none
    is_mutable := none }

/-- Rust `str::replacen(pat, rep, n)` for a single-character pattern, on
character lists: replaces the first `n` occurrences of `c` by `rep` and
leaves the rest of the string unchanged. -/
def replacen_char : List Char → Char → List Char → Nat → List Char
  | [], _, _, _ => []
  | x :: xs, c, rep, n =>
    if n ≠ 0 ∧ x = c then rep ++ replacen_char xs c rep (n - 1)
    else x :: replacen_char xs c rep n

/-- Rust `path.starts_with('~')`: the first character is `'~'`. -/
def starts_with_tilde (path : String) : Bool :=
  match path.data with
  | c :: _ => c == '~'
  | [] => false

/-- Embedding of `expand_tilde` (main.rs lines 83-90).  The `HOME` environment variable
is an explicit `Option String` input; when the path starts with `'~'` and
`HOME` is set, the path's first `'~'` is replaced by the home string via
`replacen('~', &home, 1)`; otherwise the path is returned unchanged. -/
def expand_tilde (home : Option String) (path : String) : String :=
  if starts_with_tilde path then
    match home with
    | some h => String.mk (replacen_char path.data '~' h.data 1)
    | none => path
  else path

/-- Rust `str::trim_end_matches('\0')`: drops every trailing null
character. -/
def trim_end_nulls (s : String) : String :=
  String.mk ((s.data.reverse.dropWhile (fun c => c == '\x00')).reverse)

/-- One `old -> new` line of the update summary (main.rs lines 204-218). -/
structure FieldDisplay where
  old : String
  new : String
deriving DecidableEq, Repr

/-- The three `old -> new` pairs printed by `update_metadata` (main.rs
lines 201-218): the old side is the fetched field passed through
`trim_end_matches('\0')`, the new side is the merged (`unwrap_or`) value
printed verbatim. -/
def update_summary (existing : Metadata)
    (name symbol uri : Option String) : List FieldDisplay :=
  let updated_name := name.getD existing.name
  let updated_symbol := symbol.getD existing.symbol
  let updated_uri := uri.getD existing.uri
  [ { old := trim_end_nulls existing.name, new := updated_name }
  , { old := trim_end_nulls existing.symbol, new := updated_symbol }
  , { old := trim_end_nulls existing.uri, new := updated_uri } ]

/-- The parsed subcommand (main.rs lines 35-81); the mint is still the raw
string clap produced, validated only later by `Pubkey::from_str`. -/
inductive Commands where
  | create (mint name symbol uri : String) (mutable : Bool)
      (seller_fee_basis_points : Nat)
  | update (mint : String) (name symbol uri : Option String)
deriving DecidableEq, Repr

/-- The failures reachable before any network call in `main`. -/
inductive CliError where
  | keyLoad (expandedPath : String)
  | invalidMint
deriving DecidableEq, Repr

/-- Embedding of `load_keypair` (main.rs lines 92-96), with the filesystem read
`read_keypair_file` abstracted as `readKeypairFile : String → Option Pubkey`
(a loaded keypair is represented by its public key). -/
def load_keypair (readKeypairFile : String → Option Pubkey)
    (home : Option String) (path : String) : Except CliError Pubkey :=
  let expanded := expand_tilde home path
  match readKeypairFile expanded with
  | some kp => Except.ok kp
  | none => Except.error (CliError.keyLoad expanded)

/-- Embedding of `main` (main.rs lines 267-309) up to the network boundary, preserving
the order of its fallible steps: `load_keypair` runs first (line 270), and
`Pubkey::from_str(&mint)` runs afterwards inside the match (lines 285 and
303).  `parsePubkey` abstracts the external base58 `Pubkey::from_str`; on
success the run yields the loaded payer key and the parsed mint. -/
def run_main (readKeypairFile : String → Option Pubkey)
    (parsePubkey : String → Option Pubkey) (home : Option String)
    (keypairPath : String) (cmd : Commands) :
    Except CliError (Pubkey × Pubkey) :=
  match load_keypair readKeypairFile home keypairPath with
  | Except.error e => Except.error e
  | Except.ok payer =>
    match cmd with
    | Commands.create mint _ _ _ _ _ =>
      match parsePubkey mint with
      | some mint_pubkey => Except.ok (payer, mint_pubkey)
      | none => Except.error CliError.invalidMint
    | Commands.update mint _ _ _ =>
      match parsePubkey mint with
      | some mint_pubkey => Except.ok (payer, mint_pubkey)
      | none => Except.error CliError.invalidMint

/-- Exactly one of the three optional update fields is supplied. -/
def exactly_one_supplied (name symbol uri : Option String) : Prop :=
  (name ≠ none ∧ symbol = none ∧ uri = none) ∨
  (name = none ∧ symbol ≠ none ∧ uri = none) ∨
  (name = none ∧ symbol = none ∧ uri ≠ none)

instance (name symbol uri : Option String) :
    Decidable (exactly_one_supplied name symbol uri) := by
  unfold exactly_one_supplied
  infer_instance

/-! ## Theorems -/

/-- With the replacement budget exhausted, `replacen` copies the rest of
the string unchanged. -/
theorem replacen_char_zero (xs : List Char) (c : Char) (rep : List Char) :
    replacen_char xs c rep 0 = xs := by
  induction xs with
  | nil => rfl
  | cons x xs ih => simp [replacen_char, ih]

/-- C1: `find_metadata_pda` is a pure total Lean function (hence
deterministic and non-failing); for every mint `M` it feeds the ordered
seed list `[b"metadata", token-metadata program id bytes, mint bytes]` to
the program-address derivation against the token-metadata program id and
keeps only the first (address) component, discarding the bump; equal mints
give the identical address. -/
theorem find_metadata_pda_spec
    (fpa : List (List Nat) → Pubkey → Pubkey × Nat) (M M' : Pubkey)
    (h : M = M') :
    find_metadata_pda fpa M =
      (fpa [METADATA_SEED, TOKEN_METADATA_PROGRAM_ID, M]
        TOKEN_METADATA_PROGRAM_ID).fst ∧
    find_metadata_pda fpa M = find_metadata_pda fpa M' := by
  subst h
  exact ⟨rfl, rfl⟩

/-- Witness for C1 at a concrete derivation function and mint. -/
theorem find_metadata_pda_spec_witness :
    find_metadata_pda (fun _ _ => ([7], 255)) [1, 2, 3] =
      ((fun (_ : List (List Nat)) (_ : Pubkey) => (([7] : Pubkey), 255))
        [METADATA_SEED, TOKEN_METADATA_PROGRAM_ID, [1, 2, 3]]
        TOKEN_METADATA_PROGRAM_ID).fst ∧
    find_metadata_pda (fun _ _ => ([7], 255)) [1, 2, 3] =
      find_metadata_pda (fun _ _ => ([7], 255)) [1, 2, 3] :=
  find_metadata_pda_spec (fun _ _ => ([7], 255)) [1, 2, 3] [1, 2, 3] rfl

/-- C2: when exactly one of name/symbol/URI is supplied, the merge changes
only that string field: each omitted field keeps the fetched (null-padded)
value, the supplied field takes the supplied value, and royalty, creators,
collection and uses stay the carried-over fetched values. -/
theorem merge_data_single_field (existing : Metadata)
    (name symbol uri : Option String)
    (h : exactly_one_supplied name symbol uri) :
    (name = none → (merge_data existing name symbol uri).name = existing.name) ∧
    (symbol = none →
      (merge_data existing name symbol uri).symbol = existing.symbol) ∧
    (uri = none → (merge_data existing name symbol uri).uri = existing.uri) ∧
    (∀ v, name = some v → (merge_data existing name symbol uri).name = v) ∧
    (∀ v, symbol = some v →
      (merge_data existing name symbol uri).symbol = v) ∧
    (∀ v, uri = some v → (merge_data existing name symbol uri).uri = v) ∧
    (merge_data existing name symbol uri).seller_fee_basis_points =
      existing.seller_fee_basis_points ∧
    (merge_data existing name symbol uri).creators = existing.creators := by
  refine ⟨?_, ?_, ?_, ?_, ?_, ?_, rfl, rfl⟩
  · rintro rfl; rfl
  · rintro rfl; rfl
  · rintro rfl; rfl
  · rintro v rfl; rfl
  · rintro v rfl; rfl
  · rintro v rfl; rfl

/-- Witness for C2: only the name supplied, on a concrete padded record. -/
theorem merge_data_single_field_witness :
    exactly_one_supplied (some "X") none none ∧
    (merge_data ⟨"N\x00", "S\x00", "U\x00", 5, none, none, none⟩
        (some "X") none none).symbol = "S\x00" ∧
    (merge_data ⟨"N\x00", "S\x00", "U\x00", 5, none, none, none⟩
        (some "X") none none).uri = "U\x00" ∧
    (merge_data ⟨"N\x00", "S\x00", "U\x00", 5, none, none, none⟩
        (some "X") none none).name = "X" := by
  have hone : exactly_one_supplied (some "X") none none :=
    Or.inl ⟨by simp, rfl, rfl⟩
  have h := merge_data_single_field
    ⟨"N\x00", "S\x00", "U\x00", 5, none, none, none⟩ (some "X") none none hone
  exact ⟨hone, h.2.1 rfl, h.2.2.1 rfl, h.2.2.2.1 "X" rfl⟩

/-- C3: with no field supplied, the merged record reproduces the fetched
record field-for-field: the three null-padded strings, the royalty basis
points and the creators are the fetched values unchanged, and collection
and uses carry over with every sub-field equal (re-expressed in the
`DataV2` sub-record shapes). -/
theorem merge_data_noop (existing : Metadata) :
    (merge_data existing none none none).name = existing.name ∧
    (merge_data existing none none none).symbol = existing.symbol ∧
    (merge_data existing none none none).uri = existing.uri ∧
    (merge_data existing none none none).seller_fee_basis_points =
      existing.seller_fee_basis_points ∧
    (merge_data existing none none none).creators = existing.creators ∧
    (merge_data existing none none none).collection =
      existing.collection.map
        (fun c => { verified := c.verified, key := c.key }) ∧
    (merge_data existing none none none).uses =
      existing.uses.map
        (fun u => { use_method := u.use_method, remaining := u.remaining,
                    total := u.total }) :=
  ⟨rfl, rfl, rfl, rfl, rfl, rfl, rfl⟩

/-- C4: whatever subset of name/symbol/URI the caller supplies, royalty
basis points and creators always equal the fetched values, and collection
and uses always equal the fetched values re-expressed sub-field by
sub-field as `{verified, key}` and `{method, remaining, total}`. -/
theorem merge_data_frame (existing : Metadata)
    (name symbol uri : Option String) :
    (merge_data existing name symbol uri).seller_fee_basis_points =
      existing.seller_fee_basis_points ∧
    (merge_data existing name symbol uri).creators = existing.creators ∧
    (merge_data existing name symbol uri).collection =
      existing.collection.map
        (fun c => { verified := c.verified, key := c.key }) ∧
    (merge_data existing name symbol uri).uses =
      existing.uses.map
        (fun u => { use_method := u.use_method, remaining := u.remaining,
                    total := u.total }) :=
  ⟨rfl, rfl, rfl, rfl⟩

/-- C5: a create invocation with only mint, name, symbol and URI supplied
and every other option at its clap default builds an instruction whose
record carries exactly the supplied name, symbol and URI, with the mutable
flag true, seller fee basis points 0, and no creators, collection or uses;
when `--uri` is also omitted the URI is the empty string. -/
theorem create_metadata_defaults
    (fpa : List (List Nat) → Pubkey → Pubkey × Nat)
    (payer mint : Pubkey) (name symbol uri : String) :
    (create_metadata_ix fpa payer mint name symbol uri
        DEFAULT_SELLER_FEE_BASIS_POINTS DEFAULT_MUTABLE).data.name = name ∧
    (create_metadata_ix fpa payer mint name symbol uri
        DEFAULT_SELLER_FEE_BASIS_POINTS DEFAULT_MUTABLE).data.symbol = symbol ∧
    (create_metadata_ix fpa payer mint name symbol uri
        DEFAULT_SELLER_FEE_BASIS_POINTS DEFAULT_MUTABLE).data.uri = uri ∧
    (create_metadata_ix fpa payer mint name symbol uri
        DEFAULT_SELLER_FEE_BASIS_POINTS DEFAULT_MUTABLE).is_mutable = true ∧
    (create_metadata_ix fpa payer mint name symbol uri
        DEFAULT_SELLER_FEE_BASIS_POINTS
        DEFAULT_MUTABLE).data.seller_fee_basis_points = 0 ∧
    (create_metadata_ix fpa payer mint name symbol uri
        DEFAULT_SELLER_FEE_BASIS_POINTS DEFAULT_MUTABLE).data.creators = none ∧
    (create_metadata_ix fpa payer mint name symbol uri
        DEFAULT_SELLER_FEE_BASIS_POINTS
        DEFAULT_MUTABLE).data.collection = none ∧
    (create_metadata_ix fpa payer mint name symbol uri
        DEFAULT_SELLER_FEE_BASIS_POINTS DEFAULT_MUTABLE).data.uses = none ∧
    (create_metadata_ix fpa payer mint name symbol DEFAULT_URI
        DEFAULT_SELLER_FEE_BASIS_POINTS DEFAULT_MUTABLE).data.uri = "" :=
  ⟨rfl, rfl, rfl, rfl, rfl, rfl, rfl, rfl, rfl⟩

/-- C6: for every 16-bit seller-fee value, including values above 10000,
the create path performs no local range check: the instruction is built
as a total function carrying exactly the supplied value. -/
theorem create_metadata_no_fee_validation
    (fpa : List (List Nat) → Pubkey → Pubkey × Nat)
    (payer mint : Pubkey) (name symbol uri : String) (is_mutable : Bool)
    (v : Nat) (h16 : v < 65536) :
    (create_metadata_ix fpa payer mint name symbol uri v
        is_mutable).data.seller_fee_basis_points = v :=
  rfl

/-- Witness for C6 at an out-of-documented-range value 12345 (> 10000). -/
theorem create_metadata_no_fee_validation_witness :
    12345 < 65536 ∧ 10000 < 12345 ∧
    (create_metadata_ix (fun _ _ => ([7], 255)) [1] [2] "n" "s" "u" 12345
        true).data.seller_fee_basis_points = 12345 :=
  ⟨by decide, by decide,
   create_metadata_no_fee_validation (fun _ _ => ([7], 255)) [1] [2]
     "n" "s" "u" true 12345 (by decide)⟩

/-- C7: with `HOME=/home/u`, a path starting with `'~'` expands to
`/home/u` followed by the rest of the path; a path not starting with the
marker is returned unchanged; with `HOME` unset the path (and its literal
marker) is returned unchanged. -/
theorem expand_tilde_spec (rest : List Char) (p : String) (c : Char)
    (cs : List Char) (home : Option String) (hc : c ≠ '~') :
    expand_tilde (some "/home/u") (String.mk ('~' :: rest)) =
      String.mk ("/home/u".data ++ rest) ∧
    expand_tilde home (String.mk (c :: cs)) = String.mk (c :: cs) ∧
    expand_tilde none p = p := by
  refine ⟨?_, ?_, ?_⟩
  · simp [expand_tilde, starts_with_tilde, replacen_char, replacen_char_zero]
  · simp [expand_tilde, starts_with_tilde, hc]
  · simp [expand_tilde]

/-- Witness for C7 at concrete paths. -/
theorem expand_tilde_spec_witness :
    expand_tilde (some "/home/u") (String.mk ('~' :: "/x".data)) =
      String.mk ("/home/u".data ++ "/x".data) ∧
    expand_tilde (some "/home/u") (String.mk ('p' :: [])) =
      String.mk ('p' :: []) ∧
    expand_tilde none "~/x" = "~/x" :=
  ⟨(expand_tilde_spec "/x".data "~/x" 'p' [] (some "/home/u")
      (by decide)).1,
   (expand_tilde_spec "/x".data "~/x" 'p' [] (some "/home/u")
      (by decide)).2.1,
   (expand_tilde_spec "/x".data "~/x" 'p' [] none (by decide)).2.2⟩

/-- C8 counterexample: with a malformed mint address and a keypair file
that fails to load, `main` fails with the key-load error, not the
invalid-address error — the key loader runs before mint validation, so the
claimed ordering (address validation strictly first, hence invalid-address
failure regardless of the key file) is false on the code. -/
theorem run_main_order_counterexample :
    run_main (fun _ => none) (fun _ => none) none "k.json"
        (Commands.update "not-base58" none none none) =
      Except.error (CliError.keyLoad "k.json") ∧
    run_main (fun _ => none) (fun _ => none) none "k.json"
        (Commands.update "not-base58" none none none) ≠
      Except.error CliError.invalidMint := by
  refine ⟨rfl, ?_⟩
  intro h
  have h2 : (Except.error (CliError.keyLoad "k.json") :
      Except CliError (Pubkey × Pubkey)) =
      Except.error CliError.invalidMint := h
  injection h2 with h3
  exact CliError.noConfusion h3

/-- C8 amended: mint validation runs after the key loader; for every
invocation (create or update) whose keypair file loads successfully and
whose mint address is malformed, the process fails with the
invalid-address error. -/
theorem run_main_invalid_mint_after_key_load
    (readKeypairFile : String → Option Pubkey)
    (parsePubkey : String → Option Pubkey) (home : Option String)
    (keypairPath mint : String) (kp : Pubkey)
    (nm sy ur : String) (mu : Bool) (sf : Nat)
    (name symbol uri : Option String)
    (hk : readKeypairFile (expand_tilde home keypairPath) = some kp)
    (hm : parsePubkey mint = none) :
    run_main readKeypairFile parsePubkey home keypairPath
        (Commands.update mint name symbol uri) =
      Except.error CliError.invalidMint ∧
    run_main readKeypairFile parsePubkey home keypairPath
        (Commands.create mint nm sy ur mu sf) =
      Except.error CliError.invalidMint := by
  constructor <;> simp [run_main, load_keypair, hk, hm]

/-- Witness for the amended C8 at concrete inputs. -/
theorem run_main_invalid_mint_after_key_load_witness :
    run_main (fun _ => some [9]) (fun _ => none) none "k.json"
        (Commands.update "not-base58" none none none) =
      Except.error CliError.invalidMint ∧
    run_main (fun _ => some [9]) (fun _ => none) none "k.json"
        (Commands.create "not-base58" "n" "s" "u" true 0) =
      Except.error CliError.invalidMint :=
  run_main_invalid_mint_after_key_load (fun _ => some [9]) (fun _ => none)
    none "k.json" "not-base58" [9] "n" "s" "u" true 0 none none none
    rfl rfl

/-- C9 counterexample: for a fetched record whose name is `"A\x00"` and an
update supplying nothing, the summary's name pair displays the old side
stripped (`"A"`) but the new side verbatim (`"A\x00"`), which still
carries its trailing null padding — so not every displayed side is
stripped. -/
theorem update_summary_counterexample :
    (update_summary ⟨"A\x00", "S", "U", 0, none, none, none⟩
        none none none).head? =
      some { old := "A", new := "A\x00" } ∧
    trim_end_nulls "A\x00" = "A" ∧ ("A\x00" : String) ≠ "A" := by
  refine ⟨by decide, by decide, by decide⟩

/-- C9 amended: in each `old -> new` pair of the update summary the old
side is the fetched field with trailing nulls stripped, while the new side
is the merged record's value printed verbatim (so it keeps its padding
when carried over); the merged record itself keeps the padded forms. -/
theorem update_summary_display (existing : Metadata)
    (name symbol uri : Option String) :
    (update_summary existing name symbol uri).map (fun d => d.old) =
      [trim_end_nulls existing.name, trim_end_nulls existing.symbol,
       trim_end_nulls existing.uri] ∧
    (update_summary existing name symbol uri).map (fun d => d.new) =
      [(merge_data existing name symbol uri).name,
       (merge_data existing name symbol uri).symbol,
       (merge_data existing name symbol uri).uri] :=
  ⟨rfl, rfl⟩

/-- C10: the update instruction sets only the metadata account, the
signing update authority and the data field; the builder's optional
new-update-authority, primary-sale and mutability arguments are all left
unset (`none`), so those on-chain attributes are never changed by the
update path. -/
theorem update_metadata_ix_only_data
    (fpa : List (List Nat) → Pubkey → Pubkey × Nat)
    (payer mint : Pubkey) (existing : Metadata)
    (name symbol uri : Option String) :
    (update_metadata_ix fpa payer mint existing name symbol
        uri).new_update_authority = none ∧
    (update_metadata_ix fpa payer mint existing name symbol
        uri).primary_sale_happened = none ∧
    (update_metadata_ix fpa payer mint existing name symbol
        uri).is_mutable = none ∧
    (update_metadata_ix fpa payer mint existing name symbol uri).data =
      some (merge_data existing name symbol uri) :=
  ⟨rfl, rfl, rfl, rfl⟩

end TokenMetadataCli
